import Mathlib

/-!
Verification of the greenhouse layout generator (`app.py`).

The numeric computations of the program are embedded over `ℚ` (the source
uses Python floats; all arithmetic here is the exact rational counterpart).
The embedded functions keep the source's names: `pack_repeating_stripes`,
`place_stripes`, `grow_L`, `grow_W`, `stripes_span`, `stripe_length`,
`n_beds`, `start_x`, `start_y`, `bed_area`, `aisle_area`, `headhouse_area`,
`total_area`, and the assembled rectangle list `rects`.
-/

/-- The per-rectangle attribute mapping (`meta : Dict` in the source).
Only three shapes of mapping are ever created by the program:
`{"label": ...}` for the headhouse, `{"index": i+1}` for a bed, and
`{"between": "a-b"}` for an aisle (modelled as the pair of bed indices). -/
inductive RectMeta where
  | label (s : String)
  | index (i : ℕ)
  | between (a b : ℕ)
deriving DecidableEq, Repr

/-- `Rect` dataclass from the source: kind, position, dimensions, meta. -/
structure Rect where
  kind : String
  x : ℚ
  y : ℚ
  w : ℚ
  h : ℚ
  meta : RectMeta
deriving DecidableEq, Repr

/-- `pack_repeating_stripes(total, stripe, gap)` from the source:
returns 0 if `stripe <= 0 or total <= 0`; otherwise
`max(0, floor((total + gap) / (stripe + gap)))` if `gap >= 0` else 0. -/
def pack_repeating_stripes (total stripe gap : ℚ) : ℤ :=
  if stripe ≤ 0 ∨ total ≤ 0 then 0
  else if 0 ≤ gap then max 0 ⌊(total + gap) / (stripe + gap)⌋ else 0

/-- The loop body of `place_stripes`: `rem` iterations remain, `i` is the
0-based loop index reached so far, `(x, y)` the current cursor. A bed is
appended each iteration; an aisle is appended and the cursor advanced only
when this is not the last iteration (`i < count - 1` in the source, i.e.
`rem ≥ 2` here on entry). -/
def placeGo (x y len stripe_w gap_w : ℚ) (along_length : Bool) (i : ℕ) :
    ℕ → List Rect × List Rect
  | 0 => ([], [])
  | rem + 1 =>
    if along_length then
      let bed : Rect := ⟨"bed", x, y, stripe_w, len, RectMeta.index (i + 1)⟩
      if rem = 0 then ([bed], [])
      else
        let aisle : Rect :=
          ⟨"aisle", x + stripe_w, y, gap_w, len, RectMeta.between (i + 1) (i + 2)⟩
        let rest := placeGo (x + stripe_w + gap_w) y len stripe_w gap_w along_length (i + 1) rem
        (bed :: rest.1, aisle :: rest.2)
    else
      let bed : Rect := ⟨"bed", x, y, len, stripe_w, RectMeta.index (i + 1)⟩
      if rem = 0 then ([bed], [])
      else
        let aisle : Rect :=
          ⟨"aisle", x, y + stripe_w, len, gap_w, RectMeta.between (i + 1) (i + 2)⟩
        let rest := placeGo x (y + stripe_w + gap_w) len stripe_w gap_w along_length (i + 1) rem
        (bed :: rest.1, aisle :: rest.2)

/-- `place_stripes(start_x, start_y, length, stripe_w, gap_w, count, along_length)`
from the source, returning the pair `(beds, aisles)`. -/
def place_stripes (start_x start_y len stripe_w gap_w : ℚ) (count : ℕ)
    (along_length : Bool) : List Rect × List Rect :=
  placeGo start_x start_y len stripe_w gap_w along_length 0 count

/-- The sidebar parameter tuple. `beds_along_length` is
`orientation.startswith("North")`; `include_service` and `service_w` are the
center-service-aisle inputs, carried but (per the source) never read by the
layout computation. -/
structure Params where
  W : ℚ
  L : ℚ
  buffer : ℚ
  headhouse_depth : ℚ
  beds_along_length : Bool
  include_service : Bool
  service_w : ℚ
  bed_w : ℚ
  aisle_w : ℚ
deriving DecidableEq, Repr

/-- `grow_L = max(0.0, L - headhouse_depth - 2*buffer)`. -/
def grow_L (p : Params) : ℚ := max 0 (p.L - p.headhouse_depth - 2 * p.buffer)

/-- `grow_W = max(0.0, W - 2*buffer)`. -/
def grow_W (p : Params) : ℚ := max 0 (p.W - 2 * p.buffer)

/-- `stripes_span`: the packed axis, `grow_W` for north–south beds else `grow_L`. -/
def stripes_span (p : Params) : ℚ :=
  if p.beds_along_length then grow_W p else grow_L p

/-- `stripe_length`: how long each bed runs, `grow_L` for north–south beds else `grow_W`. -/
def stripe_length (p : Params) : ℚ :=
  if p.beds_along_length then grow_L p else grow_W p

/-- `n_beds = pack_repeating_stripes(stripes_span, bed_w, aisle_w)` (a
non-negative int, used as the iteration count of `place_stripes`). -/
def n_beds (p : Params) : ℕ :=
  (pack_repeating_stripes (stripes_span p) p.bed_w p.aisle_w).toNat

/-- `start_x = buffer`. -/
def start_x (p : Params) : ℚ := p.buffer

/-- `start_y = headhouse_depth + buffer`. -/
def start_y (p : Params) : ℚ := p.headhouse_depth + p.buffer

/-- The headhouse rectangle list: `[Rect("headhouse", 0, 0, W, headhouse_depth)]`
when `headhouse_depth > 0`, empty otherwise. -/
def headhouseRects (p : Params) : List Rect :=
  if 0 < p.headhouse_depth then
    [⟨"headhouse", 0, 0, p.W, p.headhouse_depth, RectMeta.label "Headhouse"⟩]
  else []

/-- The `beds` list returned by the `place_stripes` call of the program. -/
def layoutBeds (p : Params) : List Rect :=
  (place_stripes (start_x p) (start_y p) (stripe_length p) p.bed_w p.aisle_w
    (n_beds p) p.beds_along_length).1

/-- The `aisles` list returned by the `place_stripes` call of the program. -/
def layoutAisles (p : Params) : List Rect :=
  (place_stripes (start_x p) (start_y p) (stripe_length p) p.bed_w p.aisle_w
    (n_beds p) p.beds_along_length).2

/-- The full rectangle sequence: headhouse (if any) appended first, then
`rects.extend(beds)`, then `rects.extend(aisles)`. -/
def rects (p : Params) : List Rect :=
  headhouseRects p ++ layoutBeds p ++ layoutAisles p

/-- `bed_area = sum(r.w * r.h for r in rects if r.kind == "bed")`. -/
def bed_area (p : Params) : ℚ :=
  (((rects p).filter (fun r => r.kind == "bed")).map (fun r => r.w * r.h)).sum

/-- `aisle_area = sum(r.w * r.h for r in rects if r.kind == "aisle")`. -/
def aisle_area (p : Params) : ℚ :=
  (((rects p).filter (fun r => r.kind == "aisle")).map (fun r => r.w * r.h)).sum

/-- `headhouse_area = headhouse_depth * W`. -/
def headhouse_area (p : Params) : ℚ := p.headhouse_depth * p.W

/-- `total_area = W * L`. -/
def total_area (p : Params) : ℚ := p.W * p.L

/-- One row of the tabular export:
`{"Type": r.kind, "x": r.x, "y": r.y, "width": r.w, "height": r.h, **r.meta}`. -/
structure Row where
  type : String
  x : ℚ
  y : ℚ
  width : ℚ
  height : ℚ
  attrs : RectMeta
deriving DecidableEq, Repr

/-- The dict built for each rectangle in the export expander. -/
def toRow (r : Rect) : Row := ⟨r.kind, r.x, r.y, r.w, r.h, r.meta⟩

/-- `rows = [{...} for r in rects]`: one row per rectangle, in `rects` order. -/
def exportRows (p : Params) : List Row := (rects p).map toRow

/-- Two placed rectangles overlap when their interiors intersect, i.e. their
open coordinate ranges meet on both axes. -/
def Overlap (r1 r2 : Rect) : Prop :=
  r1.x < r2.x + r2.w ∧ r2.x < r1.x + r1.w ∧ r1.y < r2.y + r2.h ∧ r2.y < r1.y + r1.h

instance : DecidablePred fun p : Rect × Rect => Overlap p.1 p.2 := by
  intro p; unfold Overlap; infer_instance

instance (r1 r2 : Rect) : Decidable (Overlap r1 r2) := by
  unfold Overlap; infer_instance

/-- The bed rectangle placed at loop index `i + j` when packing along the
length axis: the cursor has advanced `j` full periods past `xq`. -/
def bedNS (xq yq len sw gw : ℚ) (i j : ℕ) : Rect :=
  ⟨"bed", xq + (j : ℚ) * (sw + gw), yq, sw, len, RectMeta.index (i + j + 1)⟩

/-- The aisle rectangle placed at loop index `i + j` when packing along the
length axis. -/
def aisleNS (xq yq len sw gw : ℚ) (i j : ℕ) : Rect :=
  ⟨"aisle", xq + (j : ℚ) * (sw + gw) + sw, yq, gw, len,
    RectMeta.between (i + j + 1) (i + j + 2)⟩

/-- The bed rectangle placed at loop index `i + j` when packing along the
width axis (the cursor advances in `y`). -/
def bedEW (xq yq len sw gw : ℚ) (i j : ℕ) : Rect :=
  ⟨"bed", xq, yq + (j : ℚ) * (sw + gw), len, sw, RectMeta.index (i + j + 1)⟩

/-- The aisle rectangle placed at loop index `i + j` when packing along the
width axis. -/
def aisleEW (xq yq len sw gw : ℚ) (i j : ℕ) : Rect :=
  ⟨"aisle", xq, yq + (j : ℚ) * (sw + gw) + sw, len, gw,
    RectMeta.between (i + j + 1) (i + j + 2)⟩

theorem bedNS_zero (xq yq len sw gw : ℚ) (i : ℕ) :
    bedNS xq yq len sw gw i 0 =
      ⟨"bed", xq, yq, sw, len, RectMeta.index (i + 1)⟩ := by
  simp [bedNS]

theorem aisleNS_zero (xq yq len sw gw : ℚ) (i : ℕ) :
    aisleNS xq yq len sw gw i 0 =
      ⟨"aisle", xq + sw, yq, gw, len, RectMeta.between (i + 1) (i + 2)⟩ := by
  simp [aisleNS]

theorem bedEW_zero (xq yq len sw gw : ℚ) (i : ℕ) :
    bedEW xq yq len sw gw i 0 =
      ⟨"bed", xq, yq, len, sw, RectMeta.index (i + 1)⟩ := by
  simp [bedEW]

theorem aisleEW_zero (xq yq len sw gw : ℚ) (i : ℕ) :
    aisleEW xq yq len sw gw i 0 =
      ⟨"aisle", xq, yq + sw, len, gw, RectMeta.between (i + 1) (i + 2)⟩ := by
  simp [aisleEW]

theorem bedNS_shift (xq yq len sw gw : ℚ) (i j : ℕ) :
    bedNS (xq + sw + gw) yq len sw gw (i + 1) j = bedNS xq yq len sw gw i (j + 1) := by
  simp only [bedNS]
  congr 1
  all_goals first | rfl | omega | (push_cast; ring_nf)

theorem aisleNS_shift (xq yq len sw gw : ℚ) (i j : ℕ) :
    aisleNS (xq + sw + gw) yq len sw gw (i + 1) j = aisleNS xq yq len sw gw i (j + 1) := by
  simp only [aisleNS]
  congr 1
  all_goals first | rfl | omega | (push_cast; ring_nf)

theorem bedEW_shift (xq yq len sw gw : ℚ) (i j : ℕ) :
    bedEW xq (yq + sw + gw) len sw gw (i + 1) j = bedEW xq yq len sw gw i (j + 1) := by
  simp only [bedEW]
  congr 1
  all_goals first | rfl | omega | (push_cast; ring_nf)

theorem aisleEW_shift (xq yq len sw gw : ℚ) (i j : ℕ) :
    aisleEW xq (yq + sw + gw) len sw gw (i + 1) j = aisleEW xq yq len sw gw i (j + 1) := by
  simp only [aisleEW]
  congr 1
  all_goals first | rfl | omega | (push_cast; ring_nf)

/-- Closed form of the placement loop when packing along the length axis. -/
theorem placeGo_true_eq (xq yq len sw gw : ℚ) (i rem : ℕ) :
    placeGo xq yq len sw gw true i rem =
      ((List.range rem).map (bedNS xq yq len sw gw i),
       (List.range (rem - 1)).map (aisleNS xq yq len sw gw i)) := by
  induction rem generalizing xq i with
  | zero => simp [placeGo]
  | succ rem ih =>
    cases rem with
    | zero => simp [placeGo, List.range_succ, bedNS]
    | succ r =>
      rw [placeGo]
      simp only [if_pos, if_neg (Nat.succ_ne_zero r), ite_true]
      rw [ih]
      refine Prod.ext ?_ ?_
      · simp only [List.range_succ_eq_map, List.map_cons, List.map_map]
        refine congrArg₂ List.cons ?_ (congrArg₂ List.cons ?_ ?_)
        · exact (bedNS_zero xq yq len sw gw i).symm
        · exact bedNS_shift xq yq len sw gw i 0
        · refine List.map_congr_left ?_
          intro j hj
          exact bedNS_shift xq yq len sw gw i (j + 1)
      · simp only [Nat.add_sub_cancel, List.range_succ_eq_map, List.map_cons, List.map_map]
        refine congrArg₂ List.cons ?_ ?_
        · exact (aisleNS_zero xq yq len sw gw i).symm
        · refine List.map_congr_left ?_
          intro j hj
          exact aisleNS_shift xq yq len sw gw i j

/-- Closed form of the placement loop when packing along the width axis. -/
theorem placeGo_false_eq (xq yq len sw gw : ℚ) (i rem : ℕ) :
    placeGo xq yq len sw gw false i rem =
      ((List.range rem).map (bedEW xq yq len sw gw i),
       (List.range (rem - 1)).map (aisleEW xq yq len sw gw i)) := by
  induction rem generalizing yq i with
  | zero => simp [placeGo]
  | succ rem ih =>
    cases rem with
    | zero => simp [placeGo, List.range_succ, bedEW]
    | succ r =>
      rw [placeGo]
      simp only [Bool.false_eq_true, if_false, if_neg (Nat.succ_ne_zero r)]
      rw [ih]
      refine Prod.ext ?_ ?_
      · simp only [List.range_succ_eq_map, List.map_cons, List.map_map]
        refine congrArg₂ List.cons ?_ (congrArg₂ List.cons ?_ ?_)
        · exact (bedEW_zero xq yq len sw gw i).symm
        · exact bedEW_shift xq yq len sw gw i 0
        · refine List.map_congr_left ?_
          intro j hj
          exact bedEW_shift xq yq len sw gw i (j + 1)
      · simp only [Nat.add_sub_cancel, List.range_succ_eq_map, List.map_cons, List.map_map]
        refine congrArg₂ List.cons ?_ ?_
        · exact (aisleEW_zero xq yq len sw gw i).symm
        · refine List.map_congr_left ?_
          intro j hj
          exact aisleEW_shift xq yq len sw gw i j

/-- Closed form of `place_stripes` for the north–south orientation. -/
theorem place_stripes_true_eq (sx sy len sw gw : ℚ) (count : ℕ) :
    place_stripes sx sy len sw gw count true =
      ((List.range count).map (bedNS sx sy len sw gw 0),
       (List.range (count - 1)).map (aisleNS sx sy len sw gw 0)) :=
  placeGo_true_eq sx sy len sw gw 0 count

/-- Closed form of `place_stripes` for the east–west orientation. -/
theorem place_stripes_false_eq (sx sy len sw gw : ℚ) (count : ℕ) :
    place_stripes sx sy len sw gw count false =
      ((List.range count).map (bedEW sx sy len sw gw 0),
       (List.range (count - 1)).map (aisleEW sx sy len sw gw 0)) :=
  placeGo_false_eq sx sy len sw gw 0 count

/-- The packer never returns a negative count. -/
theorem pack_nonneg (total stripe gap : ℚ) :
    0 ≤ pack_repeating_stripes total stripe gap := by
  unfold pack_repeating_stripes
  split
  · exact le_refl 0
  · split
    · exact le_max_left 0 _
    · exact le_refl 0

/-- On valid inputs the packer agrees with the clamped closed form. -/
theorem pack_eq_floor (total stripe gap : ℚ)
    (ht : 0 ≤ total) (hs : 0 < stripe) (hg : 0 ≤ gap) :
    pack_repeating_stripes total stripe gap =
      max 0 ⌊(total + gap) / (stripe + gap)⌋ := by
  unfold pack_repeating_stripes
  rcases lt_or_eq_of_le ht with ht' | ht'
  · rw [if_neg (by push_neg; exact ⟨hs, ht'⟩), if_pos hg]
  · rw [if_pos (Or.inr ht'.symm.le)]
    have h0 : ⌊(total + gap) / (stripe + gap)⌋ = 0 := by
      rw [Int.floor_eq_zero_iff]
      constructor
      · exact div_nonneg (by rw [← ht']; simpa using hg) (by positivity)
      · rw [div_lt_one (by positivity)]
        rw [← ht']
        simpa using hs
    rw [h0]
    simp

/-- On valid inputs, `n` beds of width `stripe` with `n - 1` gaps of width
`gap` fit inside `total`. -/
theorem pack_fits (total stripe gap : ℚ)
    (ht : 0 ≤ total) (hs : 0 < stripe) (hg : 0 ≤ gap) :
    ((pack_repeating_stripes total stripe gap : ℚ)) * stripe +
      ((max 0 (pack_repeating_stripes total stripe gap - 1) : ℤ) : ℚ) * gap ≤ total := by
  set n := pack_repeating_stripes total stripe gap with hn
  rcases le_or_lt n 0 with h0 | h1
  · have : n = 0 := le_antisymm h0 (pack_nonneg total stripe gap)
    rw [this]
    simpa using ht
  · have hf : n = ⌊(total + gap) / (stripe + gap)⌋ := by
      rw [hn, pack_eq_floor total stripe gap ht hs hg] at h1 ⊢
      omega
    have hmax : (max 0 (n - 1) : ℤ) = n - 1 := max_eq_right (by omega)
    rw [hmax]
    have hle : (n : ℚ) ≤ (total + gap) / (stripe + gap) := by
      rw [hf]
      exact Int.floor_le _
    rw [le_div_iff₀ (by positivity)] at hle
    push_cast
    nlinarith [hle]

/-- On valid inputs, `n + 1` beds with `n` gaps do not fit inside `total`:
the packed count is maximal. -/
theorem pack_maximal (total stripe gap : ℚ)
    (ht : 0 ≤ total) (hs : 0 < stripe) (hg : 0 ≤ gap) :
    total < ((pack_repeating_stripes total stripe gap : ℚ) + 1) * stripe +
      (pack_repeating_stripes total stripe gap : ℚ) * gap := by
  set n := pack_repeating_stripes total stripe gap with hn
  have hfl : ⌊(total + gap) / (stripe + gap)⌋ ≤ n := by
    rw [hn, pack_eq_floor total stripe gap ht hs hg]
    exact le_max_right 0 _
  have hlt : (total + gap) / (stripe + gap) < (n : ℚ) + 1 := by
    have h1 : (total + gap) / (stripe + gap) <
        (⌊(total + gap) / (stripe + gap)⌋ : ℚ) + 1 := Int.lt_floor_add_one _
    have h2 : ((⌊(total + gap) / (stripe + gap)⌋ : ℤ) : ℚ) ≤ (n : ℚ) := by
      exact_mod_cast hfl
    linarith
  rw [div_lt_iff₀ (by positivity)] at hlt
  nlinarith [hlt]

/-- The edge policy of the packer: any degenerate input yields count 0. -/
theorem pack_edge_zero (total stripe gap : ℚ)
    (h : stripe ≤ 0 ∨ total ≤ 0 ∨ gap < 0) :
    pack_repeating_stripes total stripe gap = 0 := by
  unfold pack_repeating_stripes
  rcases h with h | h | h
  · rw [if_pos (Or.inl h)]
  · rw [if_pos (Or.inr h)]
  · split
    · rfl
    · rw [if_neg (not_le.mpr h)]

/-- A zero count produces no rectangles at all. -/
theorem place_stripes_zero (sx sy len sw gw : ℚ) (along : Bool) :
    place_stripes sx sy len sw gw 0 along = ([], []) := rfl

/-- C1, as stated over every input, fails: at `total = -1, stripe = 1, gap = 1`
the packer returns `n = 0`, and the claimed lower bound
`n*stripe + max(0,n-1)*gap ≤ total` reads `0 ≤ -1`, which is false. -/
theorem C1_counterexample :
    pack_repeating_stripes (-1) 1 1 = 0 ∧
    ¬ ((pack_repeating_stripes (-1) 1 1 : ℚ) * 1 +
        ((max 0 (pack_repeating_stripes (-1) 1 1 - 1) : ℤ) : ℚ) * 1 ≤ -1) := by
  have h : pack_repeating_stripes (-1) 1 1 = 0 := by
    unfold pack_repeating_stripes
    norm_num
  refine ⟨h, ?_⟩
  rw [h]
  norm_num

/-- C1 (amended): for `total ≥ 0`, `stripe > 0` and `gap ≥ 0`, if the packer
returns `n` then `n` stripes with `n - 1` gaps fit (`n*stripe + max(0,n-1)*gap
≤ total`), `n + 1` stripes do not (`(n+1)*stripe + n*gap > total`), and `n` is
the clamped closed form `max 0 ⌊(total+gap)/(stripe+gap)⌋`. -/
theorem C1_pack_count_maximal (total stripe gap : ℚ) (n : ℤ)
    (ht : 0 ≤ total) (hs : 0 < stripe) (hg : 0 ≤ gap)
    (hn : pack_repeating_stripes total stripe gap = n) :
    (n : ℚ) * stripe + ((max 0 (n - 1) : ℤ) : ℚ) * gap ≤ total ∧
    total < ((n : ℚ) + 1) * stripe + (n : ℚ) * gap ∧
    n = max 0 ⌊(total + gap) / (stripe + gap)⌋ := by
  subst hn
  exact ⟨pack_fits total stripe gap ht hs hg,
    pack_maximal total stripe gap ht hs hg,
    pack_eq_floor total stripe gap ht hs hg⟩

/-- Witness for C1 (amended) at `total = 5, stripe = 2, gap = 1`, where the
packer returns 2. -/
theorem C1_pack_count_maximal_witness :
    ((2 : ℤ) : ℚ) * 2 + ((max 0 ((2 : ℤ) - 1) : ℤ) : ℚ) * 1 ≤ 5 ∧
    (5 : ℚ) < (((2 : ℤ) : ℚ) + 1) * 2 + ((2 : ℤ) : ℚ) * 1 ∧
    (2 : ℤ) = max 0 ⌊((5 + 1) / (2 + 1) : ℚ)⌋ :=
  C1_pack_count_maximal 5 2 1 2 (by norm_num) (by norm_num) (by norm_num)
    (by unfold pack_repeating_stripes; norm_num)

/-- C2: `pack` returns 0 whenever `stripe ≤ 0`, `total ≤ 0` or `gap < 0`;
at the layout level such degenerate geometry is absorbed rather than
reported: zero beds are placed, bed and aisle area are zero, and the
rectangle list degenerates to the headhouse-only layout. -/
theorem C2_degenerate_absorbed (total stripe gap : ℚ) (p : Params)
    (h : stripe ≤ 0 ∨ total ≤ 0 ∨ gap < 0)
    (hp : p.bed_w ≤ 0 ∨ stripes_span p ≤ 0 ∨ p.aisle_w < 0) :
    pack_repeating_stripes total stripe gap = 0 ∧
    n_beds p = 0 ∧
    bed_area p = 0 ∧
    aisle_area p = 0 ∧
    rects p = headhouseRects p := by
  have hn : n_beds p = 0 := by
    unfold n_beds
    rw [pack_edge_zero _ _ _ hp]
    rfl
  have hbeds : layoutBeds p = [] := by
    unfold layoutBeds
    rw [hn, place_stripes_zero]
  have haisles : layoutAisles p = [] := by
    unfold layoutAisles
    rw [hn, place_stripes_zero]
  have hrects : rects p = headhouseRects p := by
    unfold rects
    rw [hbeds, haisles]
    simp
  have hh : ∀ r ∈ headhouseRects p, r.kind = "headhouse" := by
    unfold headhouseRects
    split
    · intro r hr
      simp at hr
      rw [hr]
    · intro r hr
      simp at hr
  refine ⟨pack_edge_zero total stripe gap h, hn, ?_, ?_, hrects⟩
  · unfold bed_area
    rw [hrects]
    rw [List.filter_eq_nil_iff.mpr ?_]
    · rfl
    · intro r hr
      have := hh r hr
      simp [this]
  · unfold aisle_area
    rw [hrects]
    rw [List.filter_eq_nil_iff.mpr ?_]
    · rfl
    · intro r hr
      have := hh r hr
      simp [this]

/-- Witness for C2 at `total = -1, stripe = 1, gap = 0` and a parameter
tuple with `bed_w = 0`. -/
theorem C2_degenerate_absorbed_witness :
    pack_repeating_stripes (-1) 1 0 = 0 ∧
    n_beds ⟨9, 24, 0, 2, true, true, 1, 0, 1⟩ = 0 ∧
    bed_area ⟨9, 24, 0, 2, true, true, 1, 0, 1⟩ = 0 ∧
    aisle_area ⟨9, 24, 0, 2, true, true, 1, 0, 1⟩ = 0 ∧
    rects ⟨9, 24, 0, 2, true, true, 1, 0, 1⟩ =
      headhouseRects ⟨9, 24, 0, 2, true, true, 1, 0, 1⟩ :=
  C2_degenerate_absorbed (-1) 1 0 ⟨9, 24, 0, 2, true, true, 1, 0, 1⟩
    (Or.inr (Or.inl (by norm_num))) (Or.inl (by norm_num))

/-- The spec's end-to-end example parameter tuple:
`W=9, L=24, buffer=0.3, headhouse_depth=2.0, orientation=NS,
bed_w=1.2, aisle_w=0.5` (service inputs at their UI defaults). -/
def exampleParams : Params := ⟨9, 24, 0.3, 2, true, true, 0.8, 1.2, 0.5⟩

theorem exampleParams_grow_W : grow_W exampleParams = 8.4 := by
  unfold grow_W exampleParams
  norm_num

theorem exampleParams_grow_L : grow_L exampleParams = 21.4 := by
  unfold grow_L exampleParams
  norm_num

theorem exampleParams_span : stripes_span exampleParams = 8.4 := by
  unfold stripes_span
  rw [if_pos (show exampleParams.beds_along_length = true from rfl)]
  exact exampleParams_grow_W

theorem exampleParams_len : stripe_length exampleParams = 21.4 := by
  unfold stripe_length
  rw [if_pos (show exampleParams.beds_along_length = true from rfl)]
  exact exampleParams_grow_L

theorem examplePack : pack_repeating_stripes 8.4 1.2 0.5 = 5 := by
  unfold pack_repeating_stripes
  norm_num

theorem exampleParams_n_beds : n_beds exampleParams = 5 := by
  unfold n_beds
  rw [exampleParams_span]
  rw [show exampleParams.bed_w = 1.2 from rfl, show exampleParams.aisle_w = 0.5 from rfl]
  rw [examplePack]
  rfl

theorem exampleParams_start_y : start_y exampleParams = 2.3 := by
  unfold start_y exampleParams
  norm_num

theorem exampleParams_beds : layoutBeds exampleParams =
    (List.range 5).map (bedNS 0.3 2.3 21.4 1.2 0.5 0) := by
  unfold layoutBeds
  rw [exampleParams_n_beds, show start_x exampleParams = 0.3 from rfl,
    exampleParams_start_y, exampleParams_len]
  rw [show exampleParams.bed_w = 1.2 from rfl, show exampleParams.aisle_w = 0.5 from rfl,
    show exampleParams.beds_along_length = true from rfl]
  rw [place_stripes_true_eq]

theorem exampleParams_aisles : layoutAisles exampleParams =
    (List.range 4).map (aisleNS 0.3 2.3 21.4 1.2 0.5 0) := by
  unfold layoutAisles
  rw [exampleParams_n_beds, show start_x exampleParams = 0.3 from rfl,
    exampleParams_start_y, exampleParams_len]
  rw [show exampleParams.bed_w = 1.2 from rfl, show exampleParams.aisle_w = 0.5 from rfl,
    show exampleParams.beds_along_length = true from rfl]
  rw [place_stripes_true_eq]

theorem exampleParams_headhouse : headhouseRects exampleParams =
    [⟨"headhouse", 0, 0, 9, 2, RectMeta.label "Headhouse"⟩] := by
  unfold headhouseRects
  rw [if_pos (show (0 : ℚ) < exampleParams.headhouse_depth by norm_num [exampleParams])]
  rfl

/-- C3: on the example tuple, `grow_W = 8.4`, `pack(8.4, 1.2, 0.5) = 5`,
five beds and four aisles are produced, `grow_L = 21.4`, each bed measures
`1.2 × 21.4`, and the total bed area is `128.4`. -/
theorem C3_end_to_end_example :
    grow_W exampleParams = 8.4 ∧
    pack_repeating_stripes 8.4 1.2 0.5 = 5 ∧
    (layoutBeds exampleParams).length = 5 ∧
    (layoutAisles exampleParams).length = 4 ∧
    grow_L exampleParams = 21.4 ∧
    (∀ r ∈ layoutBeds exampleParams, r.w = 1.2 ∧ r.h = 21.4) ∧
    bed_area exampleParams = 128.4 := by
  have hbeds := exampleParams_beds
  have haisles := exampleParams_aisles
  have hhh := exampleParams_headhouse
  refine ⟨exampleParams_grow_W, examplePack, ?_, ?_, exampleParams_grow_L, ?_, ?_⟩
  · rw [hbeds]
    simp
  · rw [haisles]
    simp
  · rw [hbeds]
    intro r hr
    simp only [List.mem_map, List.mem_range] at hr
    obtain ⟨j, hj, rfl⟩ := hr
    exact ⟨rfl, rfl⟩
  · unfold bed_area rects
    rw [hbeds, haisles, hhh]
    simp [List.range_succ, bedNS, aisleNS, List.filter_cons]
    norm_num

/-- C4: for any count passed to `place_stripes` (in either orientation), the
bed list has exactly `count` entries and the aisle list has exactly
`max(0, bedCount - 1)` entries: the last unit gets no trailing aisle. -/
theorem C4_aisle_count (sx sy len sw gw : ℚ) (count : ℕ) (along : Bool) :
    (place_stripes sx sy len sw gw count along).1.length = count ∧
    ((place_stripes sx sy len sw gw count along).2.length : ℤ) =
      max 0 (((place_stripes sx sy len sw gw count along).1.length : ℤ) - 1) := by
  cases along
  · rw [place_stripes_false_eq]
    simp only [List.length_map, List.length_range]
    refine ⟨trivial, ?_⟩
    omega
  · rw [place_stripes_true_eq]
    simp only [List.length_map, List.length_range]
    refine ⟨trivial, ?_⟩
    omega

/-- The packed span is never negative (it is clamped by `max 0`). -/
theorem stripes_span_nonneg (p : Params) : 0 ≤ stripes_span p := by
  unfold stripes_span grow_W grow_L
  split <;> exact le_max_left 0 _

/-- The bed count, recast to `ℤ`, is exactly the packer's return value. -/
theorem n_beds_eq_pack (p : Params) :
    (n_beds p : ℤ) = pack_repeating_stripes (stripes_span p) p.bed_w p.aisle_w := by
  unfold n_beds
  exact Int.toNat_of_nonneg (pack_nonneg _ _ _)

/-- C5: with the count taken from the packer, every bed and aisle rectangle
ends within the usable span: its far edge along the packed axis is at most
`start + stripes_span`. -/
theorem C5_within_span (p : Params) (hs : 0 < p.bed_w) (hg : 0 ≤ p.aisle_w) :
    ∀ r ∈ layoutBeds p ++ layoutAisles p,
      (if p.beds_along_length then r.x + r.w else r.y + r.h) ≤
        (if p.beds_along_length then start_x p else start_y p) + stripes_span p := by
  intro r hr
  have hspan0 : 0 ≤ stripes_span p := stripes_span_nonneg p
  have hfit := pack_fits (stripes_span p) p.bed_w p.aisle_w hspan0 hs hg
  rw [← n_beds_eq_pack] at hfit
  set N := n_beds p with hN
  cases hb : p.beds_along_length with
  | true =>
    rw [if_pos rfl, if_pos rfl]
    unfold layoutBeds layoutAisles at hr
    rw [← hN, hb, place_stripes_true_eq] at hr
    rw [List.mem_append] at hr
    rcases hr with hr | hr
    · rw [List.mem_map] at hr
      obtain ⟨j, hj, rfl⟩ := hr
      rw [List.mem_range] at hj
      have hN1 : 1 ≤ N := by omega
      have hmax : (max 0 ((N : ℤ) - 1) : ℤ) = (N : ℤ) - 1 := by omega
      rw [hmax] at hfit
      push_cast at hfit
      have hjN : (j : ℚ) + 1 ≤ (N : ℚ) := by exact_mod_cast hj
      simp only [bedNS]
      have hper : (0 : ℚ) ≤ p.bed_w + p.aisle_w := by linarith
      nlinarith [mul_nonneg (by linarith : (0 : ℚ) ≤ (N : ℚ) - 1 - (j : ℚ)) hper]
    · rw [List.mem_map] at hr
      obtain ⟨j, hj, rfl⟩ := hr
      rw [List.mem_range] at hj
      have hN2 : 2 ≤ N := by omega
      have hj2 : j + 2 ≤ N := by omega
      have hmax : (max 0 ((N : ℤ) - 1) : ℤ) = (N : ℤ) - 1 := by omega
      rw [hmax] at hfit
      push_cast at hfit
      have hjN : (j : ℚ) + 2 ≤ (N : ℚ) := by exact_mod_cast hj2
      simp only [aisleNS]
      have hper : (0 : ℚ) ≤ p.bed_w + p.aisle_w := by linarith
      nlinarith [mul_nonneg (by linarith : (0 : ℚ) ≤ (N : ℚ) - 2 - (j : ℚ)) hper]
  | false =>
    rw [if_neg (by simp), if_neg (by simp)]
    unfold layoutBeds layoutAisles at hr
    rw [← hN, hb, place_stripes_false_eq] at hr
    rw [List.mem_append] at hr
    rcases hr with hr | hr
    · rw [List.mem_map] at hr
      obtain ⟨j, hj, rfl⟩ := hr
      rw [List.mem_range] at hj
      have hN1 : 1 ≤ N := by omega
      have hmax : (max 0 ((N : ℤ) - 1) : ℤ) = (N : ℤ) - 1 := by omega
      rw [hmax] at hfit
      push_cast at hfit
      have hjN : (j : ℚ) + 1 ≤ (N : ℚ) := by exact_mod_cast hj
      simp only [bedEW]
      have hper : (0 : ℚ) ≤ p.bed_w + p.aisle_w := by linarith
      nlinarith [mul_nonneg (by linarith : (0 : ℚ) ≤ (N : ℚ) - 1 - (j : ℚ)) hper]
    · rw [List.mem_map] at hr
      obtain ⟨j, hj, rfl⟩ := hr
      rw [List.mem_range] at hj
      have hN2 : 2 ≤ N := by omega
      have hj2 : j + 2 ≤ N := by omega
      have hmax : (max 0 ((N : ℤ) - 1) : ℤ) = (N : ℤ) - 1 := by omega
      rw [hmax] at hfit
      push_cast at hfit
      have hjN : (j : ℚ) + 2 ≤ (N : ℚ) := by exact_mod_cast hj2
      simp only [aisleEW]
      have hper : (0 : ℚ) ≤ p.bed_w + p.aisle_w := by linarith
      nlinarith [mul_nonneg (by linarith : (0 : ℚ) ≤ (N : ℚ) - 2 - (j : ℚ)) hper]

/-- Witness for C5: the first bed of the example layout ends within the span. -/
theorem C5_within_span_witness :
    (if exampleParams.beds_along_length then
        (bedNS 0.3 2.3 21.4 1.2 0.5 0 0).x + (bedNS 0.3 2.3 21.4 1.2 0.5 0 0).w
      else (bedNS 0.3 2.3 21.4 1.2 0.5 0 0).y + (bedNS 0.3 2.3 21.4 1.2 0.5 0 0).h) ≤
      (if exampleParams.beds_along_length then start_x exampleParams
        else start_y exampleParams) + stripes_span exampleParams :=
  C5_within_span exampleParams (by norm_num [exampleParams]) (by norm_num [exampleParams])
    (bedNS 0.3 2.3 21.4 1.2 0.5 0 0)
    (by
      rw [List.mem_append]
      left
      rw [exampleParams_beds]
      exact List.mem_map.mpr ⟨0, by simp, rfl⟩)

/-- C6: with a positive stripe width and non-negative gap, the bed and aisle
rectangles of one placement pass are pairwise non-overlapping. -/
theorem C6_no_overlap (sx sy len sw gw : ℚ) (count : ℕ) (along : Bool)
    (hs : 0 < sw) (hg : 0 ≤ gw) :
    ((place_stripes sx sy len sw gw count along).1 ++
      (place_stripes sx sy len sw gw count along).2).Pairwise
      (fun r1 r2 => ¬ Overlap r1 r2) := by
  have hu : (0 : ℚ) ≤ sw + gw := by linarith
  cases along
  · rw [place_stripes_false_eq]
    rw [List.pairwise_append]
    refine ⟨?_, ?_, ?_⟩
    · rw [List.pairwise_map]
      refine (List.pairwise_lt_range count).imp ?_
      intro a b hab hov
      simp only [Overlap, bedEW] at hov
      obtain ⟨h1, h2, h3, h4⟩ := hov
      have hab' : (a : ℚ) + 1 ≤ (b : ℚ) := by exact_mod_cast hab
      nlinarith [mul_nonneg (by linarith : (0 : ℚ) ≤ (b : ℚ) - (a : ℚ) - 1) hu]
    · rw [List.pairwise_map]
      refine (List.pairwise_lt_range (count - 1)).imp ?_
      intro a b hab hov
      simp only [Overlap, aisleEW] at hov
      obtain ⟨h1, h2, h3, h4⟩ := hov
      have hab' : (a : ℚ) + 1 ≤ (b : ℚ) := by exact_mod_cast hab
      nlinarith [mul_nonneg (by linarith : (0 : ℚ) ≤ (b : ℚ) - (a : ℚ) - 1) hu]
    · intro r1 hr1 r2 hr2
      rw [List.mem_map] at hr1 hr2
      obtain ⟨j, hj, rfl⟩ := hr1
      obtain ⟨a, ha, rfl⟩ := hr2
      intro hov
      simp only [Overlap, bedEW, aisleEW] at hov
      obtain ⟨h1, h2, h3, h4⟩ := hov
      rcases le_or_lt j a with hja | haj
      · have hja' : (j : ℚ) ≤ (a : ℚ) := by exact_mod_cast hja
        nlinarith [mul_nonneg (by linarith : (0 : ℚ) ≤ (a : ℚ) - (j : ℚ)) hu]
      · have haj' : (a : ℚ) + 1 ≤ (j : ℚ) := by exact_mod_cast haj
        nlinarith [mul_nonneg (by linarith : (0 : ℚ) ≤ (j : ℚ) - (a : ℚ) - 1) hu]
  · rw [place_stripes_true_eq]
    rw [List.pairwise_append]
    refine ⟨?_, ?_, ?_⟩
    · rw [List.pairwise_map]
      refine (List.pairwise_lt_range count).imp ?_
      intro a b hab hov
      simp only [Overlap, bedNS] at hov
      obtain ⟨h1, h2, h3, h4⟩ := hov
      have hab' : (a : ℚ) + 1 ≤ (b : ℚ) := by exact_mod_cast hab
      nlinarith [mul_nonneg (by linarith : (0 : ℚ) ≤ (b : ℚ) - (a : ℚ) - 1) hu]
    · rw [List.pairwise_map]
      refine (List.pairwise_lt_range (count - 1)).imp ?_
      intro a b hab hov
      simp only [Overlap, aisleNS] at hov
      obtain ⟨h1, h2, h3, h4⟩ := hov
      have hab' : (a : ℚ) + 1 ≤ (b : ℚ) := by exact_mod_cast hab
      nlinarith [mul_nonneg (by linarith : (0 : ℚ) ≤ (b : ℚ) - (a : ℚ) - 1) hu]
    · intro r1 hr1 r2 hr2
      rw [List.mem_map] at hr1 hr2
      obtain ⟨j, hj, rfl⟩ := hr1
      obtain ⟨a, ha, rfl⟩ := hr2
      intro hov
      simp only [Overlap, bedNS, aisleNS] at hov
      obtain ⟨h1, h2, h3, h4⟩ := hov
      rcases le_or_lt j a with hja | haj
      · have hja' : (j : ℚ) ≤ (a : ℚ) := by exact_mod_cast hja
        nlinarith [mul_nonneg (by linarith : (0 : ℚ) ≤ (a : ℚ) - (j : ℚ)) hu]
      · have haj' : (a : ℚ) + 1 ≤ (j : ℚ) := by exact_mod_cast haj
        nlinarith [mul_nonneg (by linarith : (0 : ℚ) ≤ (j : ℚ) - (a : ℚ) - 1) hu]

/-- Witness for C6: the example placement (5 beds, 4 aisles, `sw = 1.2 > 0`,
`gw = 0.5 ≥ 0`) is pairwise non-overlapping. -/
theorem C6_no_overlap_witness :
    ((place_stripes 0.3 2.3 21.4 1.2 0.5 5 true).1 ++
      (place_stripes 0.3 2.3 21.4 1.2 0.5 5 true).2).Pairwise
      (fun r1 r2 => ¬ Overlap r1 r2) :=
  C6_no_overlap 0.3 2.3 21.4 1.2 0.5 5 true (by norm_num) (by norm_num)

/-- Every rectangle of one placement pass lies at or above the starting `y`
of the pass (beds advance only upward/eastward). -/
theorem place_stripes_y_ge (sx sy len sw gw : ℚ) (count : ℕ) (along : Bool)
    (hsw : 0 ≤ sw) (hgw : 0 ≤ gw) :
    ∀ r ∈ (place_stripes sx sy len sw gw count along).1 ++
      (place_stripes sx sy len sw gw count along).2, sy ≤ r.y := by
  have hu : (0 : ℚ) ≤ sw + gw := by linarith
  intro r hr
  cases along
  · rw [place_stripes_false_eq] at hr
    rw [List.mem_append] at hr
    rcases hr with hr | hr <;> rw [List.mem_map] at hr <;> obtain ⟨j, hj, rfl⟩ := hr
    · simp only [bedEW]
      nlinarith [mul_nonneg (Nat.cast_nonneg (α := ℚ) j) hu]
    · simp only [aisleEW]
      nlinarith [mul_nonneg (Nat.cast_nonneg (α := ℚ) j) hu]
  · rw [place_stripes_true_eq] at hr
    rw [List.mem_append] at hr
    rcases hr with hr | hr <;> rw [List.mem_map] at hr <;> obtain ⟨j, hj, rfl⟩ := hr
    · exact le_refl sy
    · exact le_refl sy

/-- C7: if `headhouse_depth > 0` exactly one headhouse rectangle is produced,
at `(0, 0)` with width `W` and height `headhouse_depth`; the bed/aisle region
begins at `y = headhouse_depth + buffer`, every placed bed/aisle lies at or
beyond it, and none overlaps the headhouse. If `headhouse_depth = 0` no
headhouse rectangle is produced and `start_y = buffer`. -/
theorem C7_headhouse_region (p : Params)
    (hb : 0 ≤ p.buffer) (hs : 0 < p.bed_w) (hg : 0 ≤ p.aisle_w) :
    (0 < p.headhouse_depth →
      headhouseRects p =
        [⟨"headhouse", 0, 0, p.W, p.headhouse_depth, RectMeta.label "Headhouse"⟩] ∧
      start_y p = p.headhouse_depth + p.buffer ∧
      (∀ r ∈ layoutBeds p ++ layoutAisles p,
        p.headhouse_depth + p.buffer ≤ r.y ∧
        ¬ Overlap ⟨"headhouse", 0, 0, p.W, p.headhouse_depth, RectMeta.label "Headhouse"⟩ r)) ∧
    (p.headhouse_depth = 0 → headhouseRects p = [] ∧ start_y p = p.buffer) := by
  constructor
  · intro hd
    refine ⟨by unfold headhouseRects; rw [if_pos hd], rfl, ?_⟩
    intro r hr
    have hy := place_stripes_y_ge (start_x p) (start_y p) (stripe_length p)
      p.bed_w p.aisle_w (n_beds p) p.beds_along_length (le_of_lt hs) hg r hr
    have hy' : p.headhouse_depth + p.buffer ≤ r.y := by
      unfold start_y at hy
      exact hy
    refine ⟨hy', ?_⟩
    intro hov
    obtain ⟨h1, h2, h3, h4⟩ := hov
    simp only at h3 h4
    linarith
  · intro hd
    refine ⟨?_, ?_⟩
    · unfold headhouseRects
      rw [if_neg (by rw [hd]; exact lt_irrefl 0)]
    · unfold start_y
      rw [hd, zero_add]

/-- Witness for C7 at the example tuple (`headhouse_depth = 2 > 0`). -/
theorem C7_headhouse_region_witness :
    headhouseRects exampleParams =
      [⟨"headhouse", 0, 0, exampleParams.W, exampleParams.headhouse_depth,
        RectMeta.label "Headhouse"⟩] ∧
    start_y exampleParams = exampleParams.headhouse_depth + exampleParams.buffer :=
  ⟨((C7_headhouse_region exampleParams (by norm_num [exampleParams])
      (by norm_num [exampleParams]) (by norm_num [exampleParams])).1
      (by norm_num [exampleParams])).1,
   ((C7_headhouse_region exampleParams (by norm_num [exampleParams])
      (by norm_num [exampleParams]) (by norm_num [exampleParams])).1
      (by norm_num [exampleParams])).2.1⟩

/-- C8's "non-increasing in stripe" fails at the `stripe ≤ 0` edge: with
`total = 10, gap = 0`, moving the stripe width from 0 up to 1 moves the
count from 0 up to 10. -/
theorem C8_counterexample :
    (0 : ℚ) ≤ 1 ∧
    pack_repeating_stripes 10 0 0 = 0 ∧
    pack_repeating_stripes 10 1 0 = 10 ∧
    ¬ (pack_repeating_stripes 10 1 0 ≤ pack_repeating_stripes 10 0 0) := by
  have h0 : pack_repeating_stripes 10 0 0 = 0 := by
    unfold pack_repeating_stripes
    norm_num
  have h1 : pack_repeating_stripes 10 1 0 = 10 := by
    unfold pack_repeating_stripes
    norm_num
  refine ⟨by norm_num, h0, h1, ?_⟩
  rw [h0, h1]
  norm_num

/-- C8 (amended): `pack` is monotonically non-decreasing in `total` for any
fixed `stripe` and `gap`; it is monotonically non-increasing in `stripe`
when both stripe widths are positive. -/
theorem C8_pack_monotone (t t1 t2 s s1 s2 g : ℚ)
    (ht12 : t1 ≤ t2) (hs1 : 0 < s1) (hs12 : s1 ≤ s2) :
    pack_repeating_stripes t1 s g ≤ pack_repeating_stripes t2 s g ∧
    pack_repeating_stripes t s2 g ≤ pack_repeating_stripes t s1 g := by
  constructor
  · by_cases hs : s ≤ 0
    · rw [pack_edge_zero t1 s g (Or.inl hs), pack_edge_zero t2 s g (Or.inl hs)]
    · by_cases ht1 : t1 ≤ 0
      · rw [pack_edge_zero t1 s g (Or.inr (Or.inl ht1))]
        exact pack_nonneg t2 s g
      · by_cases hgg : 0 ≤ g
        · have hcond1 : ¬ (s ≤ 0 ∨ t1 ≤ 0) := by push_neg at hs ht1 ⊢; exact ⟨hs, ht1⟩
          have hcond2 : ¬ (s ≤ 0 ∨ t2 ≤ 0) := by
            push_neg at hs ht1 ⊢
            exact ⟨hs, lt_of_lt_of_le ht1 ht12⟩
          unfold pack_repeating_stripes
          rw [if_neg hcond1, if_neg hcond2, if_pos hgg, if_pos hgg]
          refine max_le_max (le_refl 0) (Int.floor_le_floor ?_)
          push_neg at hs
          gcongr
        · rw [pack_edge_zero t1 s g (Or.inr (Or.inr (lt_of_not_le hgg))),
            pack_edge_zero t2 s g (Or.inr (Or.inr (lt_of_not_le hgg)))]
  · by_cases ht : t ≤ 0
    · rw [pack_edge_zero t s1 g (Or.inr (Or.inl ht)), pack_edge_zero t s2 g (Or.inr (Or.inl ht))]
    · by_cases hgg : 0 ≤ g
      · have hs2 : 0 < s2 := lt_of_lt_of_le hs1 hs12
        have hcond1 : ¬ (s1 ≤ 0 ∨ t ≤ 0) := by push_neg at ht ⊢; exact ⟨hs1, ht⟩
        have hcond2 : ¬ (s2 ≤ 0 ∨ t ≤ 0) := by push_neg at ht ⊢; exact ⟨hs2, ht⟩
        unfold pack_repeating_stripes
        rw [if_neg hcond1, if_neg hcond2, if_pos hgg, if_pos hgg]
        refine max_le_max (le_refl 0) (Int.floor_le_floor ?_)
        push_neg at ht
        gcongr
      · rw [pack_edge_zero t s1 g (Or.inr (Or.inr (lt_of_not_le hgg))),
          pack_edge_zero t s2 g (Or.inr (Or.inr (lt_of_not_le hgg)))]

/-- Witness for C8 (amended) at `t1 = 5 ≤ t2 = 6` (stripe 2, gap 1) and
`s1 = 1 ≤ s2 = 2` (total 10, gap 1). -/
theorem C8_pack_monotone_witness :
    pack_repeating_stripes 5 2 1 ≤ pack_repeating_stripes 6 2 1 ∧
    pack_repeating_stripes 10 2 1 ≤ pack_repeating_stripes 10 1 1 :=
  C8_pack_monotone 10 5 6 2 1 2 1 (by norm_num) (by norm_num) (by norm_num)

/-- C9: `include_service` and `service_w` never influence the output: two
parameter tuples that agree on everything else produce the same rectangle
list, export rows, bed count and area metrics. -/
theorem C9_service_params_unused (p q : Params)
    (h : p.W = q.W ∧ p.L = q.L ∧ p.buffer = q.buffer ∧
      p.headhouse_depth = q.headhouse_depth ∧
      p.beds_along_length = q.beds_along_length ∧
      p.bed_w = q.bed_w ∧ p.aisle_w = q.aisle_w) :
    rects p = rects q ∧ exportRows p = exportRows q ∧
    n_beds p = n_beds q ∧ bed_area p = bed_area q ∧ aisle_area p = aisle_area q ∧
    headhouse_area p = headhouse_area q ∧ total_area p = total_area q := by
  obtain ⟨hW, hL, hb, hd, ho, hbw, haw⟩ := h
  cases p
  cases q
  simp only at hW hL hb hd ho hbw haw
  subst hW
  subst hL
  subst hb
  subst hd
  subst ho
  subst hbw
  subst haw
  exact ⟨rfl, rfl, rfl, rfl, rfl, rfl, rfl⟩

/-- Witness for C9: toggling the service inputs on the example tuple leaves
every output unchanged. -/
theorem C9_service_params_unused_witness :
    rects exampleParams = rects ⟨9, 24, 0.3, 2, true, false, 0, 1.2, 0.5⟩ ∧
    exportRows exampleParams = exportRows ⟨9, 24, 0.3, 2, true, false, 0, 1.2, 0.5⟩ ∧
    n_beds exampleParams = n_beds ⟨9, 24, 0.3, 2, true, false, 0, 1.2, 0.5⟩ ∧
    bed_area exampleParams = bed_area ⟨9, 24, 0.3, 2, true, false, 0, 1.2, 0.5⟩ ∧
    aisle_area exampleParams = aisle_area ⟨9, 24, 0.3, 2, true, false, 0, 1.2, 0.5⟩ ∧
    headhouse_area exampleParams = headhouse_area ⟨9, 24, 0.3, 2, true, false, 0, 1.2, 0.5⟩ ∧
    total_area exampleParams = total_area ⟨9, 24, 0.3, 2, true, false, 0, 1.2, 0.5⟩ :=
  C9_service_params_unused exampleParams ⟨9, 24, 0.3, 2, true, false, 0, 1.2, 0.5⟩
    ⟨rfl, rfl, rfl, rfl, rfl, rfl, rfl⟩

theorem get_map_range {α : Type} (f : ℕ → α) (n : ℕ)
    (i : Fin ((List.range n).map f).length) :
    ((List.range n).map f).get i = f i.val := by
  simp

/-- C10: the output sequence is always the optional headhouse rectangle,
then all beds in ascending index order, then all aisles in ascending order
(never interleaved), and this is exactly the row order of the tabular
export. -/
theorem C10_output_order (p : Params) :
    rects p = headhouseRects p ++ layoutBeds p ++ layoutAisles p ∧
    (∀ i : Fin (layoutBeds p).length,
      ((layoutBeds p).get i).kind = "bed" ∧
      ((layoutBeds p).get i).meta = RectMeta.index (i.val + 1)) ∧
    (∀ i : Fin (layoutAisles p).length,
      ((layoutAisles p).get i).kind = "aisle" ∧
      ((layoutAisles p).get i).meta = RectMeta.between (i.val + 1) (i.val + 2)) ∧
    exportRows p = (headhouseRects p ++ layoutBeds p ++ layoutAisles p).map toRow := by
  refine ⟨rfl, ?_, ?_, rfl⟩
  · unfold layoutBeds
    cases hb : p.beds_along_length
    · rw [place_stripes_false_eq]
      intro i
      rw [get_map_range]
      exact ⟨rfl, by simp [bedEW]⟩
    · rw [place_stripes_true_eq]
      intro i
      rw [get_map_range]
      exact ⟨rfl, by simp [bedNS]⟩
  · unfold layoutAisles
    cases hb : p.beds_along_length
    · rw [place_stripes_false_eq]
      intro i
      rw [get_map_range]
      exact ⟨rfl, by simp [aisleEW]⟩
    · rw [place_stripes_true_eq]
      intro i
      rw [get_map_range]
      exact ⟨rfl, by simp [aisleNS]⟩
